import Mathlib

/-!
Verification development for `src/batch_resizer.py` (ImgCrunch).

The Python program is shallowly embedded below.  Filesystem paths are
modelled as plain `String`s (absolute path strings, components joined by
"/").  Machine integers are `Nat`.  Fallible external operations (stat,
decode, PIL resize, save) are modelled by `Except String` valued fields of
an environment record; the control flow of `process_image` is translated
statement by statement from the source.  Python float expressions that the
program only uses on integer inputs small enough for IEEE doubles to be
exact on the decisive comparisons (`total * 0.5`, `target / width`) are
modelled by exact rational / natural arithmetic; where the float result is
truncated (`int(height * (target / width))`) the model uses natural floor
division, which agrees with the source within the tolerance the spec
itself states (±1px).
-/

namespace ImgCrunch

/-- Python `str.lower` (ASCII, which is all the program feeds it). -/
def pyLower (s : String) : String := String.mk (s.toList.map Char.toLower)

/-- Python `str.upper` (ASCII, which is all the program feeds it). -/
def pyUpper (s : String) : String := String.mk (s.toList.map Char.toUpper)

/-- Python `str.startswith`. -/
def pyStartsWith (s pre : String) : Bool := pre.toList.isPrefixOf s.toList

/-- Python `str.endswith` (what a `*{ext}` glob pattern tests). -/
def pyEndsWith (s suf : String) : Bool := suf.toList.isSuffixOf s.toList

/-- `PurePath.name` of a path string: the characters after the last slash. -/
def baseName (path : String) : List Char :=
  ((path.toList.reverse).takeWhile (fun c => c != '/')).reverse

/-- Model of `PurePath.suffix` for a path string: the extension (with dot)
of the final component; empty when the name has no dot, starts with its
only dot, or ends with a dot. -/
def pySuffix (path : String) : String :=
  let cs := baseName path
  let i := cs.length - 1 - cs.reverse.indexOf '.'
  if 0 < i ∧ i < cs.length - 1 then String.mk (cs.drop i) else ""

/-- Model of `PurePath.with_suffix(ext)` for a path string: drop the
current suffix (as computed by `pySuffix`) and append `ext`. -/
def pyWithSuffix (path ext : String) : String :=
  String.mk (path.toList.take (path.toList.length - (pySuffix path).toList.length)) ++ ext

/-- Model of `PurePath.relative_to(root)` for a path string strictly under
`root`: drop the root prefix and the separating slash. -/
def relativeTo (path root : String) : String :=
  String.mk (path.toList.drop (root.toList.length + 1))

/-- `SUPPORTED_EXTENSIONS` from the source (a Python set literal, listed
here in the literal's order). -/
def SUPPORTED_EXTENSIONS : List String :=
  [".jpg", ".jpeg", ".png", ".bmp", ".tiff", ".tif", ".webp", ".gif", ".heic", ".heif", ".avif"]

/-- `EXT_TO_FORMAT` from the source: extension → format key. -/
def EXT_TO_FORMAT : List (String × String) :=
  [(".jpg", "jpeg"), (".jpeg", "jpeg"), (".png", "jpeg"), (".bmp", "jpeg"),
   (".tiff", "jpeg"), (".tif", "jpeg"), (".webp", "jpeg"), (".gif", "jpeg"),
   (".heic", "heic"), (".heif", "heic"),
   (".avif", "avif")]

/-- One entry of `FORMAT_CONFIG`; `extra_opts` of the jpeg entry is
`{optimize: True, progressive: True}`, recorded as two booleans. -/
structure FormatCfg where
  extension : String
  pillow_format : String
  optimize : Bool
  progressive : Bool
deriving DecidableEq, Repr

/-- `FORMAT_CONFIG` from the source. -/
def FORMAT_CONFIG : List (String × FormatCfg) :=
  [("jpeg", ⟨".jpg", "JPEG", true, true⟩),
   ("heic", ⟨".heic", "HEIF", false, false⟩),
   ("avif", ⟨".avif", "AVIF", false, false⟩)]

/-- The glob filter of `find_images`: for some supported extension the file
name ends with the all-lowercase extension (pattern `*{ext}`) or with the
all-uppercase extension (pattern `*{ext.upper()}`). -/
def matchesSupported (f : String) : Bool :=
  SUPPORTED_EXTENSIONS.any fun e => pyEndsWith f e || pyEndsWith f (pyUpper e)

/-- `find_images`: the union of the `rglob` results for every lower- and
upper-case extension pattern, then `sorted(set(...))`.  The filesystem is
modelled as the list `files` of the path strings of all files below the
root. -/
def find_images (files : List String) : List String :=
  ((files.filter matchesSupported).dedup).mergeSort (fun a b => decide (a ≤ b))

/-- The exclusion filter of `main` (lines 578-579): keep an image unless
its path string starts with one of the excluded directory strings. -/
def filter_excluded (images exclude_dirs : List String) : List String :=
  images.filter fun img => !(exclude_dirs.any fun d => pyStartsWith img d)

/-- `EXT_TO_FORMAT.get(ext, 'jpeg')`. -/
def extToFormatGet (ext : String) : String := (EXT_TO_FORMAT.lookup ext).getD "jpeg"

/-- The format bucket of one image: `EXT_TO_FORMAT.get(img.suffix.lower(), 'jpeg')`. -/
def fmtOf (img : String) : String := extToFormatGet (pyLower (pySuffix img))

/-- One `Counter` update: increment the entry of `k`, appending a new
entry when `k` is not yet a key (Python dicts keep insertion order). -/
def counterAdd : List (String × Nat) → String → List (String × Nat)
  | [], k => [(k, 1)]
  | (k0, c) :: rest, k =>
      if k0 = k then (k0, c + 1) :: rest else (k0, c) :: counterAdd rest k

/-- The `Counter` built by the loop of `detect_dominant_format`. -/
def buildCounts (keys : List String) : List (String × Nat) := keys.foldl counterAdd []

/-- `counts[k]` (0 for a missing key). -/
def keyCount (counts : List (String × Nat)) (k : String) : Nat := (counts.lookup k).getD 0

/-- `sum(counts.values())`. -/
def totalCount (counts : List (String × Nat)) : Nat := (counts.map Prod.snd).sum

/-- Fold underlying `most_common(1)`: the first entry (in insertion order)
holding the maximal count, because `Counter.most_common` sorts stably by
descending count. -/
def mc1Aux : Option (String × Nat) → List (String × Nat) → Option (String × Nat)
  | best, [] => best
  | none, p :: rest => mc1Aux (some p) rest
  | some q, p :: rest => mc1Aux (if q.2 < p.2 then some p else some q) rest

/-- `counts.most_common(1)[0]` (none for an empty counter). -/
def most_common1 (counts : List (String × Nat)) : Option (String × Nat) := mc1Aux none counts

/-- `detect_dominant_format`.  The float comparison
`counts[dominant] > total * 0.5` is exact for counts below 2^52 and is
modelled by the equivalent integer comparison `total < 2 * count`. -/
def detect_dominant_format (images : List String) : String :=
  let counts := buildCounts (images.map fmtOf)
  match most_common1 counts with
  | none => "jpeg"
  | some (dominant, _) =>
      if totalCount counts < 2 * keyCount counts dominant then dominant else "jpeg"

/-- `needs_resize`. -/
def needs_resize (width height max_size : Nat) : Bool :=
  if max_size = 0 then false
  else decide (width > max_size) || decide (height > max_size)

/-- `calculate_new_size`.  `int(height * (target / width))` is modelled by
natural floor division `height * target / width`; for image-sized operands
the double-precision product is within one ulp of the exact ratio, so both
agree with the exact truncated ratio within the ±1px tolerance the spec
states. -/
def calculate_new_size (width height target : Nat) : Nat × Nat :=
  if width ≥ height then (target, height * target / width)
  else (width * target / height, target)

/-- A decoded PIL image, as far as the program observes it: color mode and
pixel dimensions. -/
structure PILImage where
  mode : String
  width : Nat
  height : Nat
deriving DecidableEq, Repr

/-- Lines 369-377: flatten alpha/palette modes onto a white background,
convert any other non-RGB mode to RGB.  All the PIL calls involved
(`Image.new`, `convert`, `paste`) preserve the pixel dimensions. -/
def normalizeMode (img : PILImage) : PILImage :=
  if img.mode = "RGBA" ∨ img.mode = "LA" ∨ img.mode = "P" then { img with mode := "RGB" }
  else if img.mode ≠ "RGB" then { img with mode := "RGB" }
  else img

/-- The fallible external operations `process_image` performs, in source
order.  Each is an oracle fixed per task: `.error e` means the underlying
call raises an exception rendered as `e`, `.ok v` means it succeeds with
value `v`.  `exifRead` stands for the whole inner try block of lines
357-367 (its success value is the optional exif byte string), `exifUpdate`
for the inner try block of lines 391-398. -/
structure TransformEnv where
  inputStat : Except String Nat
  decode : Except String PILImage
  exifRead : Except String (Option String)
  resizeStep : Except String Unit
  exifUpdate : Except String String
  save : Except String Unit
  outputStat : Except String Nat

/-- The per-task result dict of `process_image`. -/
structure ProcResult where
  input : String
  output : String
  resized : Bool
  original_size : Option (Nat × Nat)
  new_size : Option (Nat × Nat)
  input_bytes : Nat
  output_bytes : Nat
  error : Option String
deriving DecidableEq, Repr

/-- Filesystem effects relevant to the originals lifecycle. -/
inductive FsEvent
  | writeStaged (path : String)
  | deleteOriginal (path : String)
  | moveStaged (src dst : String)
  | moveAside (src dst : String)
deriving DecidableEq, Repr

/-- Lines 409-411: `img.save(...)` followed by `output_path.stat()`.  A
successful save is the event that fully writes the staged output file. -/
def saveAndStat (r : ProcResult) (env : TransformEnv) : ProcResult × List FsEvent :=
  match env.save with
  | .error e => ({ r with error := some e }, [])
  | .ok _ =>
      match env.outputStat with
      | .error e => ({ r with error := some e }, [FsEvent.writeStaged r.output])
      | .ok ob => ({ r with output_bytes := ob }, [FsEvent.writeStaged r.output])

/-- The body of `process_image` after the `FORMAT_CONFIG` lookup: the
try block of lines 352-414.  Translated statement by statement; the
result dict is updated progressively so that on an exception the fields
set so far are kept and only `error` is added. -/
def process_image_body (input_path output_path : String) (env : TransformEnv)
    (max_size : Nat) : ProcResult × List FsEvent :=
  let r0 : ProcResult :=
    { input := input_path, output := output_path, resized := false,
      original_size := none, new_size := none, input_bytes := 0,
      output_bytes := 0, error := none }
  match env.inputStat with
  | .error e => ({ r0 with error := some e }, [])
  | .ok ib =>
    let r1 := { r0 with input_bytes := ib }
    match env.decode with
    | .error e => ({ r1 with error := some e }, [])
    | .ok img0 =>
      let _exif_bytes : Option String :=
        match env.exifRead with
        | .error _ => none
        | .ok ob => ob
      let img := normalizeMode img0
      let r2 := { r1 with original_size := some (img.width, img.height) }
      if needs_resize img.width img.height max_size then
        match env.resizeStep with
        | .error e => ({ r2 with error := some e }, [])
        | .ok _ =>
          let nwh := calculate_new_size img.width img.height max_size
          let r3 := { r2 with resized := true, new_size := some nwh }
          let _exif2 : Option String :=
            match env.exifUpdate with
            | .error _ => none
            | .ok b => some b
          saveAndStat r3 env
      else
        saveAndStat { r2 with new_size := some (img.width, img.height) } env

/-- `process_image`: the `fmt = FORMAT_CONFIG[format_key]` lookup at line
350 happens before the try block is entered, so an unknown key raises a
`KeyError` that propagates to the caller (`Except.error`); for a known key
the body below never raises. -/
def process_image (format_key input_path output_path : String) (env : TransformEnv)
    (quality max_size : Nat) : Except String (ProcResult × List FsEvent) :=
  match FORMAT_CONFIG.lookup format_key with
  | none => Except.error ("KeyError: " ++ format_key)
  | some _fmt =>
      let _q := quality
      Except.ok (process_image_body input_path output_path env max_size)

/-- Mirror of the control flow of `process_image_body` recording whether
any of the fallible calls inside the try block raises (the inner exif
try blocks are absent: their exceptions are swallowed locally). -/
def saveOrStatRaises (env : TransformEnv) : Bool :=
  match env.save with
  | .error _ => true
  | .ok _ =>
      match env.outputStat with
      | .error _ => true
      | .ok _ => false

/-- Whether some transform step of the try block raises for this
environment. -/
def transformRaises (env : TransformEnv) (max_size : Nat) : Bool :=
  match env.inputStat with
  | .error _ => true
  | .ok _ =>
    match env.decode with
    | .error _ => true
    | .ok img0 =>
      let img := normalizeMode img0
      if needs_resize img.width img.height max_size then
        match env.resizeStep with
        | .error _ => true
        | .ok _ => saveOrStatRaises env
      else saveOrStatRaises env

/-- Decimal digit character (argument below 10 at every use site). -/
def digitChar : Nat → Char
  | 0 => '0'
  | 1 => '1'
  | 2 => '2'
  | 3 => '3'
  | 4 => '4'
  | 5 => '5'
  | 6 => '6'
  | 7 => '7'
  | 8 => '8'
  | _ => '9'

/-- Fuel-indexed decimal-digit recursion (structural, so that concrete
numerals evaluate inside the kernel); the fuel is immaterial once it
exceeds the argument. -/
def natDigitsFuel : Nat → Nat → List Char
  | 0, _ => []
  | fuel + 1, n =>
      if n < 10 then [digitChar n]
      else natDigitsFuel fuel (n / 10) ++ [digitChar (n % 10)]

/-- Decimal digits of `n`, most significant first: the characters of
Python `str(n)`. -/
def natDigits (n : Nat) : List Char := natDigitsFuel (n + 1) n

/-- Python `str.zfill`: left-pad with zeros to the requested width (never
truncates). -/
def zfill (s : List Char) (width : Nat) : List Char :=
  List.replicate (width - s.length) '0' ++ s

/-- `get_output_path`.  Python tests `if rename_base:` so both `None` and
the empty string select the structure-preserving branch. -/
def get_output_path (input_path output_dir input_root extension : String)
    (rename_base : Option String) (rename_index total_count : Nat) : String :=
  match rename_base with
  | some base =>
      if base = "" then
        output_dir ++ "/" ++ pyWithSuffix (relativeTo input_path input_root) extension
      else
        let pad_width := max 3 (natDigits total_count).length
        output_dir ++ "/" ++
          (base ++ "_" ++ String.mk (zfill (natDigits rename_index) pad_width) ++ extension)
  | none =>
      output_dir ++ "/" ++ pyWithSuffix (relativeTo input_path input_root) extension

/-- Lines 596-604: enumerate the images starting at index 1, compute each
output path, and drop a task whose resolved output equals the resolved
source.  `resolve` abstracts `Path.resolve()`. -/
def build_tasks_from (resolve : String → String) (output_dir input_root extension : String)
    (rename_base : Option String) (total : Nat) : Nat → List String → List (String × String)
  | _, [] => []
  | idx, img :: rest =>
      let out := get_output_path img output_dir input_root extension rename_base idx total
      let tail := build_tasks_from resolve output_dir input_root extension rename_base total
        (idx + 1) rest
      if resolve out = resolve img then tail else (img, out) :: tail

/-- The task list of `main`. -/
def build_tasks (resolve : String → String) (images : List String)
    (output_dir input_root extension : String) (rename_base : Option String) :
    List (String × String) :=
  build_tasks_from resolve output_dir input_root extension rename_base images.length 1 images

/-- `move_to_originals`: destination path of the moved-aside original. -/
def move_to_originals (input_path originals_dir input_root : String) : String :=
  originals_dir ++ "/" ++ relativeTo input_path input_root

/-- The `stats` dict of `main`. -/
structure Stats where
  processed : Nat
  resized : Nat
  errors : Nat
  moved : Nat
  replaced : Nat
  total_input_bytes : Nat
  total_output_bytes : Nat
deriving DecidableEq, Repr

/-- Outcome oracle for the delete/move pair of lines 668-670: both
succeed, `img_path.unlink()` raises, or `shutil.move` raises. -/
inductive ReplaceOutcome
  | ok
  | failUnlink
  | failMove
deriving DecidableEq, Repr

/-- Lines 663-672 inside the try: delete the original, then move the
staged converted file to the final path; events stop at the first failing
call and the boolean reports whether the pair completed. -/
def replace_original (img_path converted final : String) :
    ReplaceOutcome → List FsEvent × Bool
  | .failUnlink => ([], false)
  | .failMove => ([FsEvent.deleteOriginal img_path], false)
  | .ok => ([FsEvent.deleteOriginal img_path, FsEvent.moveStaged converted final], true)

/-- Python truthiness of the optional error string as tested by
`if result['error']:` at line 635: `None` and the empty string are falsy,
any non-empty string is truthy. -/
def errorTruthy : Option String → Bool
  | none => false
  | some s => !(s == "")

/-- One iteration of the result-collection loop (lines 631-689): count the
result, and in replace mode attempt the delete/move pair, otherwise (when
moving is enabled) attempt the move-aside; `moveOk` is the oracle for
whether `move_to_originals` raises.  The branch condition is the
truthiness of the error string, not its mere presence. -/
def collect_result (replace_mode no_move : Bool)
    (extension img_path originals_dir input_root : String) (r : ProcResult)
    (outcome : ReplaceOutcome) (moveOk : Bool) (stats : Stats) : Stats × List FsEvent :=
  if errorTruthy r.error then ({ stats with errors := stats.errors + 1 }, [])
  else
    let s1 := { stats with
      processed := stats.processed + 1,
      total_input_bytes := stats.total_input_bytes + r.input_bytes,
      total_output_bytes := stats.total_output_bytes + r.output_bytes }
    let s2 := if r.resized then { s1 with resized := s1.resized + 1 } else s1
    if replace_mode then
      let final_path := pyWithSuffix img_path extension
      let evOk := replace_original img_path r.output final_path outcome
      if evOk.2 then ({ s2 with replaced := s2.replaced + 1 }, evOk.1) else (s2, evOk.1)
    else if !no_move then
      if moveOk then
        ({ s2 with moved := s2.moved + 1 },
         [FsEvent.moveAside img_path (move_to_originals img_path originals_dir input_root)])
      else (s2, [])
    else (s2, [])

/-- A full replace-mode task: run the transform (which stages the output),
then collect its result, appending the collector's filesystem events after
the transform's. -/
def run_replace_task (img_path output_path extension : String) (env : TransformEnv)
    (max_size : Nat) (outcome : ReplaceOutcome) (stats : Stats) : Stats × List FsEvent :=
  let rt := process_image_body img_path output_path env max_size
  let sc := collect_result true false extension img_path "" "" rt.1 outcome true stats
  (sc.1, rt.2 ++ sc.2)

/-- Line 457: `saved_pct = (1 - total_out / total_in) * 100`, on exact
rationals. -/
def saved_pct (total_in total_out : ℚ) : ℚ := (1 - total_out / total_in) * 100

/-- A transform environment in which every external call succeeds, used to
instantiate hypotheses at a concrete point. -/
def envAllOk : TransformEnv :=
  ⟨.ok 100, .ok ⟨"RGB", 4000, 3000⟩, .ok none, .ok (), .ok "exif", .ok (), .ok 50⟩

/-- The zero-initialised `stats` dict of line 589. -/
def stats0 : Stats := ⟨0, 0, 0, 0, 0, 0, 0⟩

/-- A task result whose transform raised an exception carrying an empty
message — as `str(MemoryError())` is `""` and line 414 stores `str(e)` —
after the input stat succeeded (100 bytes read) and decoding failed. -/
def emptyErrResult : ProcResult :=
  { input := "/r/a.png", output := "/r/converted/a.jpg", resized := false,
    original_size := none, new_size := none, input_bytes := 100,
    output_bytes := 0, error := some "" }

theorem natDigitsFuel_congr :
    ∀ (n f1 f2 : Nat), n < f1 → n < f2 → natDigitsFuel f1 n = natDigitsFuel f2 n := by
  intro n
  induction n using Nat.strong_induction_on with
  | _ n ih =>
    intro f1 f2 h1 h2
    match f1, f2 with
    | g1 + 1, g2 + 1 =>
      by_cases hn : n < 10
      · simp [natDigitsFuel, hn]
      · have hdiv : n / 10 < n := Nat.div_lt_self (by omega) (by omega)
        simp only [natDigitsFuel, if_neg hn]
        rw [ih (n / 10) hdiv g1 g2 (by omega) (by omega)]

theorem natDigits_eq (n : Nat) :
    natDigits n = if n < 10 then [digitChar n]
      else natDigits (n / 10) ++ [digitChar (n % 10)] := by
  by_cases hn : n < 10
  · simp [natDigits, natDigitsFuel, hn]
  · have hdiv : n / 10 < n := Nat.div_lt_self (by omega) (by omega)
    have h1 : natDigits n = natDigitsFuel n (n / 10) ++ [digitChar (n % 10)] := by
      show (if n < 10 then [digitChar n]
        else natDigitsFuel n (n / 10) ++ [digitChar (n % 10)]) = _
      rw [if_neg hn]
    rw [h1, if_neg hn, natDigitsFuel_congr (n / 10) n (n / 10 + 1) (by omega) (by omega)]
    rfl

theorem natDigits_length_pos (n : Nat) : 0 < (natDigits n).length := by
  rw [natDigits_eq]
  split <;> simp

theorem natDigits_length_le : ∀ {N i : Nat}, i ≤ N →
    (natDigits i).length ≤ (natDigits N).length := by
  intro N
  induction N using Nat.strong_induction_on with
  | _ N ih =>
    intro i hiN
    by_cases hi : i < 10
    · rw [natDigits_eq i, if_pos hi]
      simpa using natDigits_length_pos N
    · have hN : ¬ N < 10 := by omega
      rw [natDigits_eq i, if_neg hi, natDigits_eq N, if_neg hN]
      simp only [List.length_append, List.length_cons, List.length_nil]
      have hrec := ih (N / 10) (Nat.div_lt_self (by omega) (by omega))
        (Nat.div_le_div_right hiN)
      omega

theorem digitChar_ne_slash (k : Nat) : digitChar k ≠ '/' := by
  unfold digitChar
  split <;> decide

theorem natDigits_no_slash : ∀ n : Nat, ('/' : Char) ∉ natDigits n := by
  intro n
  induction n using Nat.strong_induction_on with
  | _ n ih =>
    rw [natDigits_eq]
    by_cases hn : n < 10
    · simp [hn, (digitChar_ne_slash n).symm]
    · have hdiv : n / 10 < n := Nat.div_lt_self (by omega) (by omega)
      simp only [if_neg hn, List.mem_append, List.mem_singleton]
      push_neg
      exact ⟨ih (n / 10) hdiv, (digitChar_ne_slash (n % 10)).symm⟩

theorem zfill_length (s : List Char) (w : Nat) : (zfill s w).length = max w s.length := by
  simp only [zfill, List.length_append, List.length_replicate]
  omega

theorem zfill_no_slash (s : List Char) (w : Nat) (hs : ('/' : Char) ∉ s) :
    ('/' : Char) ∉ zfill s w := by
  simp only [zfill, List.mem_append, List.mem_replicate]
  rintro (⟨-, h⟩ | h)
  · exact absurd h (by decide)
  · exact hs h

/-- C8: whenever both byte totals are positive the reported savings
percentage is `(1 - totalOutput/totalInput) * 100`, equivalently
`(totalInput - totalOutput)/totalInput * 100`, and at
`totalInput = 1000`, `totalOutput = 600` it is `40`. -/
theorem c8_byte_savings (total_in total_out : ℚ)
    (hin : 0 < total_in) (hout : 0 < total_out) :
    saved_pct total_in total_out = (1 - total_out / total_in) * 100 ∧
    saved_pct total_in total_out = (total_in - total_out) / total_in * 100 ∧
    saved_pct 1000 600 = 40 := by
  refine ⟨rfl, ?_, by norm_num [saved_pct]⟩
  have hne : total_in ≠ 0 := ne_of_gt hin
  unfold saved_pct
  field_simp

theorem c8_byte_savings_witness :
    (0 : ℚ) < 1000 ∧ (0 : ℚ) < 600 ∧ saved_pct 1000 600 = 40 :=
  ⟨by norm_num, by norm_num,
    (c8_byte_savings 1000 600 (by norm_num) (by norm_num)).2.2⟩

/-- C10 counterexample: line 635 branches on the truthiness of the error
string, so a task whose transform failed with an empty exception message
(`str(MemoryError())` is `""`) is counted as processed, not errored, and
its 100 input bytes are added to the totals — contradicting the claim
that a result with an error increments the errors counter and contributes
zero bytes to the reported totals. -/
theorem c10_aggregator_counterexample :
    emptyErrResult.error.isSome = true ∧
    (collect_result false true ".jpg" "/r/a.png" "/r/originals" "/r" emptyErrResult
        ReplaceOutcome.ok true stats0).1.processed = 1 ∧
    (collect_result false true ".jpg" "/r/a.png" "/r/originals" "/r" emptyErrResult
        ReplaceOutcome.ok true stats0).1.errors = 0 ∧
    ¬ (collect_result false true ".jpg" "/r/a.png" "/r/originals" "/r" emptyErrResult
        ReplaceOutcome.ok true stats0).1.total_input_bytes
      = stats0.total_input_bytes := by
  refine ⟨rfl, by decide, by decide, by decide⟩

/-- C10 (amended): each collected result increments exactly one of the
processed/errors counters, branching on the truthiness of the error
string: a result with a non-empty error message increments errors and
leaves the byte totals unchanged, while a result with no error — or with
an empty (falsy) error message — is counted as processed and its byte
counts are added to the totals. -/
theorem c10_aggregator_truthy (replace_mode no_move : Bool)
    (extension img_path od ir : String) (r : ProcResult)
    (outcome : ReplaceOutcome) (moveOk : Bool) (st : Stats) :
    ((collect_result replace_mode no_move extension img_path od ir r outcome moveOk st).1.processed
        + (collect_result replace_mode no_move extension img_path od ir r outcome moveOk st).1.errors
      = st.processed + st.errors + 1) ∧
    (errorTruthy r.error = true →
      (collect_result replace_mode no_move extension img_path od ir r outcome moveOk st).1.errors
          = st.errors + 1 ∧
      (collect_result replace_mode no_move extension img_path od ir r outcome moveOk st).1.processed
          = st.processed ∧
      (collect_result replace_mode no_move extension img_path od ir r outcome moveOk st).1.total_input_bytes
          = st.total_input_bytes ∧
      (collect_result replace_mode no_move extension img_path od ir r outcome moveOk st).1.total_output_bytes
          = st.total_output_bytes) ∧
    (errorTruthy r.error = false →
      (collect_result replace_mode no_move extension img_path od ir r outcome moveOk st).1.processed
          = st.processed + 1 ∧
      (collect_result replace_mode no_move extension img_path od ir r outcome moveOk st).1.errors
          = st.errors ∧
      (collect_result replace_mode no_move extension img_path od ir r outcome moveOk st).1.total_input_bytes
          = st.total_input_bytes + r.input_bytes ∧
      (collect_result replace_mode no_move extension img_path od ir r outcome moveOk st).1.total_output_bytes
          = st.total_output_bytes + r.output_bytes) := by
  by_cases htr : errorTruthy r.error <;>
    cases replace_mode <;> cases no_move <;> cases moveOk <;> cases outcome <;>
    by_cases hrz : r.resized <;>
    simp [collect_result, htr, hrz, replace_original] <;> omega

theorem c10_aggregator_truthy_witness :
    errorTruthy emptyErrResult.error = false ∧
    (collect_result false true ".jpg" "/r/a.png" "/r/originals" "/r" emptyErrResult
        ReplaceOutcome.ok true stats0).1.processed = stats0.processed + 1 ∧
    (collect_result false true ".jpg" "/r/a.png" "/r/originals" "/r" emptyErrResult
        ReplaceOutcome.ok true stats0).1.errors = stats0.errors ∧
    (collect_result false true ".jpg" "/r/a.png" "/r/originals" "/r" emptyErrResult
        ReplaceOutcome.ok true stats0).1.total_input_bytes
      = stats0.total_input_bytes + emptyErrResult.input_bytes ∧
    (collect_result false true ".jpg" "/r/a.png" "/r/originals" "/r" emptyErrResult
        ReplaceOutcome.ok true stats0).1.total_output_bytes
      = stats0.total_output_bytes + emptyErrResult.output_bytes :=
  ⟨by decide,
    (c10_aggregator_truthy false true ".jpg" "/r/a.png" "/r/originals" "/r"
      emptyErrResult ReplaceOutcome.ok true stats0).2.2 (by decide)⟩

/-- C9: for each of the three supported format keys `process_image`
returns a result (never raises); for any other key the
`FORMAT_CONFIG[format_key]` lookup at line 350 raises before the per-task
exception handler is entered, so no result is produced. -/
theorem c9_format_key (format_key : String) :
    (format_key = "jpeg" ∨ format_key = "heic" ∨ format_key = "avif" →
      ∀ (ip op : String) (env : TransformEnv) (q m : Nat),
        process_image format_key ip op env q m
          = Except.ok (process_image_body ip op env m)) ∧
    (format_key ≠ "jpeg" → format_key ≠ "heic" → format_key ≠ "avif" →
      ∀ (ip op : String) (env : TransformEnv) (q m : Nat),
        process_image format_key ip op env q m
          = Except.error ("KeyError: " ++ format_key)) := by
  constructor
  · rintro (rfl | rfl | rfl) ip op env q m <;> rfl
  · intro h1 h2 h3 ip op env q m
    have e1 : (format_key == "jpeg") = false := beq_eq_false_iff_ne.mpr h1
    have e2 : (format_key == "heic") = false := beq_eq_false_iff_ne.mpr h2
    have e3 : (format_key == "avif") = false := beq_eq_false_iff_ne.mpr h3
    simp [process_image, FORMAT_CONFIG, List.lookup, e1, e2, e3]

theorem c9_format_key_witness :
    (("jpeg" : String) = "jpeg" ∨ ("jpeg" : String) = "heic" ∨ ("jpeg" : String) = "avif") ∧
    process_image "jpeg" "/r/a.png" "/r/converted/a.jpg" envAllOk 85 3000
      = Except.ok (process_image_body "/r/a.png" "/r/converted/a.jpg" envAllOk 3000) ∧
    (("png" : String) ≠ "jpeg" ∧ ("png" : String) ≠ "heic" ∧ ("png" : String) ≠ "avif") ∧
    process_image "png" "/r/a.png" "/r/converted/a.jpg" envAllOk 85 3000
      = Except.error ("KeyError: " ++ "png") :=
  ⟨Or.inl rfl,
    (c9_format_key "jpeg").1 (Or.inl rfl) "/r/a.png" "/r/converted/a.jpg" envAllOk 85 3000,
    ⟨by decide, by decide, by decide⟩,
    (c9_format_key "png").2 (by decide) (by decide) (by decide)
      "/r/a.png" "/r/converted/a.jpg" envAllOk 85 3000⟩

theorem normalizeMode_width (img : PILImage) : (normalizeMode img).width = img.width := by
  unfold normalizeMode
  split
  · rfl
  · split <;> rfl

theorem normalizeMode_height (img : PILImage) : (normalizeMode img).height = img.height := by
  unfold normalizeMode
  split
  · rfl
  · split <;> rfl

theorem needs_resize_false_iff (w h m : Nat) :
    needs_resize w h m = false ↔ m = 0 ∨ max w h ≤ m := by
  unfold needs_resize
  split
  · simp; omega
  · simp; omega

theorem needs_resize_true_iff (w h m : Nat) :
    needs_resize w h m = true ↔ m ≠ 0 ∧ m < max w h := by
  unfold needs_resize
  split
  · simp; omega
  · simp; omega

theorem div_lt_add_one_mul (a b : Nat) (hb : 0 < b) : a < (a / b + 1) * b := by
  have h1 := Nat.div_add_mod a b
  have h2 := Nat.mod_lt a hb
  have h3 : (a / b + 1) * b = b * (a / b) + b := by ring
  omega

theorem calculate_new_size_spec (w h m : Nat) (hm : 0 < m) (hlt : m < max w h) :
    max (calculate_new_size w h m).1 (calculate_new_size w h m).2 = m ∧
    min (calculate_new_size w h m).1 (calculate_new_size w h m).2
      = min w h * m / max w h ∧
    min (calculate_new_size w h m).1 (calculate_new_size w h m).2 * max w h
      ≤ min w h * m ∧
    min w h * m
      < (min (calculate_new_size w h m).1 (calculate_new_size w h m).2 + 1) * max w h := by
  unfold calculate_new_size
  by_cases hwh : w ≥ h
  · have hmaxw : max w h = w := Nat.max_eq_left hwh
    have hminh : min w h = h := Nat.min_eq_right hwh
    have hwpos : 0 < w := by omega
    have hdle : h * m / w ≤ m := by
      calc h * m / w ≤ w * m / w := Nat.div_le_div_right (Nat.mul_le_mul_right m hwh)
        _ = m := by rw [Nat.mul_comm]; exact Nat.mul_div_cancel m hwpos
    rw [if_pos hwh]
    refine ⟨by simpa using Nat.max_eq_left hdle, ?_, ?_, ?_⟩
    · simp only [hmaxw, hminh]
      simpa using Nat.min_eq_right hdle
    · simp only [hmaxw, hminh]
      have : min m (h * m / w) = h * m / w := Nat.min_eq_right hdle
      rw [this]
      exact Nat.div_mul_le_self (h * m) w
    · simp only [hmaxw, hminh]
      have : min m (h * m / w) = h * m / w := Nat.min_eq_right hdle
      rw [this]
      exact div_lt_add_one_mul (h * m) w hwpos
  · have hhw : w ≤ h := by omega
    have hmaxh : max w h = h := Nat.max_eq_right hhw
    have hminw : min w h = w := Nat.min_eq_left hhw
    have hhpos : 0 < h := by omega
    have hdle : w * m / h ≤ m := by
      calc w * m / h ≤ h * m / h := Nat.div_le_div_right (Nat.mul_le_mul_right m hhw)
        _ = m := by rw [Nat.mul_comm]; exact Nat.mul_div_cancel m hhpos
    rw [if_neg hwh]
    refine ⟨by simpa using Nat.max_eq_right hdle, ?_, ?_, ?_⟩
    · simp only [hmaxh, hminw]
      simpa using Nat.min_eq_left hdle
    · simp only [hmaxh, hminw]
      have : min (w * m / h) m = w * m / h := Nat.min_eq_left hdle
      rw [this]
      exact Nat.div_mul_le_self (w * m) h
    · simp only [hmaxh, hminw]
      have : min (w * m / h) m = w * m / h := Nat.min_eq_left hdle
      rw [this]
      exact div_lt_add_one_mul (w * m) h hhpos

/-- C2: with every external step succeeding, the transform leaves the
dimensions unchanged and reports `resized = false` when `max_size = 0` or
the longest side already fits; otherwise it reports `resized = true`, the
longer side becomes exactly `max_size`, and the shorter side is the exact
aspect-ratio value truncated to an integer (so within 1px below the exact
rational value). -/
theorem c2_resize_decision (ip op : String) (env : TransformEnv) (max_size : Nat)
    (ib ob : Nat) (img : PILImage)
    (h1 : env.inputStat = Except.ok ib) (h2 : env.decode = Except.ok img)
    (h3 : env.resizeStep = Except.ok ()) (h4 : env.save = Except.ok ())
    (h5 : env.outputStat = Except.ok ob) :
    (process_image_body ip op env max_size).1.error = none ∧
    (process_image_body ip op env max_size).1.original_size
      = some (img.width, img.height) ∧
    ((max_size = 0 ∨ max img.width img.height ≤ max_size) →
      (process_image_body ip op env max_size).1.resized = false ∧
      (process_image_body ip op env max_size).1.new_size
        = some (img.width, img.height)) ∧
    (max_size ≠ 0 → max_size < max img.width img.height →
      (process_image_body ip op env max_size).1.resized = true ∧
      ∃ nw nh, (process_image_body ip op env max_size).1.new_size = some (nw, nh) ∧
        max nw nh = max_size ∧
        min nw nh = min img.width img.height * max_size / max img.width img.height ∧
        min nw nh * max img.width img.height
          ≤ min img.width img.height * max_size ∧
        min img.width img.height * max_size
          < (min nw nh + 1) * max img.width img.height) := by
  have hw := normalizeMode_width img
  have hh := normalizeMode_height img
  by_cases hnr : needs_resize img.width img.height max_size = true
  · have hnr2 : needs_resize (normalizeMode img).width (normalizeMode img).height max_size
        = true := by rw [hw, hh]; exact hnr
    have hbody : process_image_body ip op env max_size
        = ({ input := ip, output := op, resized := true,
             original_size := some (img.width, img.height),
             new_size := some (calculate_new_size img.width img.height max_size),
             input_bytes := ib, output_bytes := ob, error := none },
           [FsEvent.writeStaged op]) := by
      simp [process_image_body, h1, h2, h3, h4, h5, saveAndStat, hnr2, hw, hh, hnr]
    have hcond := (needs_resize_true_iff _ _ _).mp hnr
    rw [hbody]
    refine ⟨rfl, rfl, ?_, ?_⟩
    · rintro (hfit | hfit)
      · exact (hcond.1 hfit).elim
      · exact absurd (lt_of_lt_of_le hcond.2 hfit) (lt_irrefl _)
    · intro hm0 hbig
      have hspec := calculate_new_size_spec img.width img.height max_size
        (by omega) hbig
      exact ⟨rfl, (calculate_new_size img.width img.height max_size).1,
        (calculate_new_size img.width img.height max_size).2, rfl,
        hspec.1, hspec.2.1, hspec.2.2.1, hspec.2.2.2⟩
  · have hnrf : needs_resize img.width img.height max_size = false := by
      simpa using hnr
    have hnr2 : needs_resize (normalizeMode img).width (normalizeMode img).height max_size
        = false := by rw [hw, hh]; exact hnrf
    have hbody : process_image_body ip op env max_size
        = ({ input := ip, output := op, resized := false,
             original_size := some (img.width, img.height),
             new_size := some (img.width, img.height),
             input_bytes := ib, output_bytes := ob, error := none },
           [FsEvent.writeStaged op]) := by
      simp [process_image_body, h1, h2, h3, h4, h5, saveAndStat, hnr2, hw, hh, hnrf]
    have hcond := (needs_resize_false_iff _ _ _).mp hnrf
    rw [hbody]
    refine ⟨rfl, rfl, fun _ => ⟨rfl, rfl⟩, ?_⟩
    intro hm0 hbig
    rcases hcond with h0 | hle
    · exact (hm0 h0).elim
    · exact absurd (lt_of_lt_of_le hbig hle) (lt_irrefl _)

theorem c2_resize_decision_witness :
    envAllOk.inputStat = Except.ok 100 ∧
    envAllOk.decode = Except.ok ⟨"RGB", 4000, 3000⟩ ∧
    envAllOk.resizeStep = Except.ok () ∧
    envAllOk.save = Except.ok () ∧
    envAllOk.outputStat = Except.ok 50 ∧
    (3000 ≠ 0 ∧ 3000 < max 4000 3000) ∧
    (process_image_body "/r/a.png" "/r/converted/a.jpg" envAllOk 3000).1.resized = true :=
  ⟨rfl, rfl, rfl, rfl, rfl, ⟨by omega, by decide⟩,
    ((c2_resize_decision "/r/a.png" "/r/converted/a.jpg" envAllOk 3000 100 50
      ⟨"RGB", 4000, 3000⟩ rfl rfl rfl rfl rfl).2.2.2 (by omega) (by decide)).1⟩

/-- C3: every exception raised by a step inside the try block is caught
and surfaces as the `error` field of the returned result (and metadata
failures, handled by the inner try blocks, do not): the error field is
populated exactly when a step raises, the transform itself is a total
function, and mapping it over any scheduled task list yields exactly one
result per task. -/
theorem c3_exceptions_captured (ip op : String) (max_size : Nat) :
    (∀ env : TransformEnv,
      (process_image_body ip op env max_size).1.error.isSome
        = transformRaises env max_size) ∧
    (∀ tasks : List TransformEnv,
      (tasks.map fun env => (process_image_body ip op env max_size).1).length
        = tasks.length) := by
  constructor
  · intro env
    rcases env with ⟨is, dec, exr, rz, exu, sv, os⟩
    cases is <;> cases dec <;> cases exr <;> cases rz <;> cases exu <;> cases sv <;>
      cases os <;>
      simp only [process_image_body, transformRaises, saveAndStat, saveOrStatRaises] <;>
      (try split) <;> simp
  · intro tasks
    exact List.length_map tasks _

theorem build_tasks_from_no_self (resolve : String → String) (od ir ext : String)
    (rb : Option String) (total : Nat) :
    ∀ (idx : Nat) (imgs : List String) (p : String × String),
      p ∈ build_tasks_from resolve od ir ext rb total idx imgs →
        resolve p.2 ≠ resolve p.1 := by
  intro idx imgs
  induction imgs generalizing idx with
  | nil =>
    intro p hp
    simp [build_tasks_from] at hp
  | cons img rest ih =>
    intro p hp
    simp only [build_tasks_from] at hp
    by_cases hcase :
        resolve (get_output_path img od ir ext rb idx total) = resolve img
    · rw [if_pos hcase] at hp
      exact ih (idx + 1) p hp
    · rw [if_neg hcase] at hp
      rcases List.mem_cons.mp hp with rfl | h
      · exact hcase
      · exact ih (idx + 1) p h

/-- C4: every task in the schedule built by `main` has a resolved
destination different from its resolved source; a candidate whose resolved
destination equals its resolved source is dropped by the guard at lines
602-603 and therefore never scheduled. -/
theorem c4_self_overwrite_guard (resolve : String → String) (images : List String)
    (od ir ext : String) (rb : Option String) (p : String × String)
    (hp : p ∈ build_tasks resolve images od ir ext rb) :
    resolve p.2 ≠ resolve p.1 :=
  build_tasks_from_no_self resolve od ir ext rb images.length 1 images p hp

theorem c4_self_overwrite_guard_witness :
    ("/r/b.png", "/r/b.jpg") ∈ build_tasks id ["/r/a.jpg", "/r/b.png"] "/r" "/r" ".jpg" none ∧
    id ("/r/b.png", "/r/b.jpg").2 ≠ id ("/r/b.png", "/r/b.jpg").1 :=
  ⟨by decide,
    c4_self_overwrite_guard id ["/r/a.jpg", "/r/b.png"] "/r" "/r" ".jpg" none
      ("/r/b.png", "/r/b.jpg") (by decide)⟩

theorem process_image_body_ok_shape (ip op : String) (env : TransformEnv) (m : Nat)
    (hok : (process_image_body ip op env m).1.error = none) :
    (process_image_body ip op env m).2 = [FsEvent.writeStaged op] ∧
    (process_image_body ip op env m).1.output = op := by
  rcases env with ⟨is, dec, exr, rz, exu, sv, os⟩
  cases is <;> cases dec <;> cases exr <;> cases rz <;> cases exu <;> cases sv <;>
    cases os <;>
    simp only [process_image_body, saveAndStat] at hok ⊢ <;>
    (try split at hok) <;> (try split) <;> simp_all

/-- C1 counterexample: the claim says a file whose delete/move pair fails
is counted as errored; in the code the transform result was already
counted as processed before the replace attempt, and on a replace failure
(here: `unlink` raising) only a warning is printed — the errors counter
stays 0, processed becomes 1, replaced stays 0. -/
theorem c1_replace_errored_counterexample :
    (process_image_body "/r/a.png" "/r/.resizer_tmp_q/a.jpg" envAllOk 3000).1.error
      = none ∧
    (run_replace_task "/r/a.png" "/r/.resizer_tmp_q/a.jpg" ".jpg" envAllOk 3000
      ReplaceOutcome.failUnlink stats0).1.processed = 1 ∧
    (run_replace_task "/r/a.png" "/r/.resizer_tmp_q/a.jpg" ".jpg" envAllOk 3000
      ReplaceOutcome.failUnlink stats0).1.replaced = 0 ∧
    ¬ (run_replace_task "/r/a.png" "/r/.resizer_tmp_q/a.jpg" ".jpg" envAllOk 3000
      ReplaceOutcome.failUnlink stats0).1.errors = stats0.errors + 1 := by
  refine ⟨by decide, by decide, by decide, by decide⟩

/-- C1 (amended): in replace mode, for a task whose transform succeeded
the staged output was fully written (the save event) before the collector
runs, and only then does the collector delete the original and move the
staged file to the original's path with the target extension substituted,
in that order; if the delete/move pair fails, the move never happens and
the replaced counter is not incremented — but the file stays counted as
processed and the errors counter is unchanged (it is not counted as
errored). -/
theorem c1_replace_lifecycle (img_path output_path ext : String) (env : TransformEnv)
    (max_size : Nat) (outcome : ReplaceOutcome) (st : Stats)
    (hok : (process_image_body img_path output_path env max_size).1.error = none) :
    (process_image_body img_path output_path env max_size).2
      = [FsEvent.writeStaged output_path] ∧
    (outcome = ReplaceOutcome.ok →
      (run_replace_task img_path output_path ext env max_size outcome st).2
        = [FsEvent.writeStaged output_path, FsEvent.deleteOriginal img_path,
           FsEvent.moveStaged output_path (pyWithSuffix img_path ext)] ∧
      (run_replace_task img_path output_path ext env max_size outcome st).1.replaced
        = st.replaced + 1) ∧
    (outcome ≠ ReplaceOutcome.ok →
      (run_replace_task img_path output_path ext env max_size outcome st).1.replaced
        = st.replaced ∧
      (run_replace_task img_path output_path ext env max_size outcome st).1.errors
        = st.errors ∧
      (run_replace_task img_path output_path ext env max_size outcome st).1.processed
        = st.processed + 1 ∧
      FsEvent.moveStaged output_path (pyWithSuffix img_path ext)
        ∉ (run_replace_task img_path output_path ext env max_size outcome st).2) := by
  obtain ⟨hev, hout2⟩ := process_image_body_ok_shape img_path output_path env max_size hok
  refine ⟨hev, ?_, ?_⟩
  · rintro rfl
    by_cases hrz : (process_image_body img_path output_path env max_size).1.resized <;>
      simp [run_replace_task, collect_result, errorTruthy, replace_original, hok, hrz, hev, hout2]
  · intro hne
    cases outcome with
    | ok => exact absurd rfl hne
    | failUnlink =>
      by_cases hrz : (process_image_body img_path output_path env max_size).1.resized <;>
        simp [run_replace_task, collect_result, errorTruthy, replace_original, hok, hrz, hev, hout2]
    | failMove =>
      by_cases hrz : (process_image_body img_path output_path env max_size).1.resized <;>
        simp [run_replace_task, collect_result, errorTruthy, replace_original, hok, hrz, hev, hout2]

theorem c1_replace_lifecycle_witness :
    (process_image_body "/r/b.png" "/r/.resizer_tmp_q/b.jpg" envAllOk 3000).1.error
      = none ∧
    (run_replace_task "/r/b.png" "/r/.resizer_tmp_q/b.jpg" ".jpg" envAllOk 3000
      ReplaceOutcome.ok stats0).2
      = [FsEvent.writeStaged "/r/.resizer_tmp_q/b.jpg",
         FsEvent.deleteOriginal "/r/b.png",
         FsEvent.moveStaged "/r/.resizer_tmp_q/b.jpg" (pyWithSuffix "/r/b.png" ".jpg")] ∧
    (run_replace_task "/r/b.png" "/r/.resizer_tmp_q/b.jpg" ".jpg" envAllOk 3000
      ReplaceOutcome.ok stats0).1.replaced = stats0.replaced + 1 :=
  ⟨by decide,
    ((c1_replace_lifecycle "/r/b.png" "/r/.resizer_tmp_q/b.jpg" ".jpg" envAllOk 3000
      ReplaceOutcome.ok stats0 (by decide)).2.1 rfl).1,
    ((c1_replace_lifecycle "/r/b.png" "/r/.resizer_tmp_q/b.jpg" ".jpg" envAllOk 3000
      ReplaceOutcome.ok stats0 (by decide)).2.1 rfl).2⟩

/-- C7: with a configured (sanitised: non-empty, slash-free) rename base,
the destination of task `i` of `N` is
`output_root / base_(i zero-padded to width max(3, digits(N)))` followed by
the target extension, the numeral's width is exactly `max(3, digits(N))`
for every `i ≤ N`, the file sits flat in the output root (the single
appended component contains no slash), the destination is independent of
the source path and input root (no subfolder nesting), and concretely
`N = 7` gives `001` through `007` while `N = 12345` pads to 5 digits. -/
theorem c7_rename_padding (base output_dir input_root extension ipath : String)
    (i N : Nat) (hbase : base ≠ "") (hslash : ('/' : Char) ∉ base.toList)
    (hext : extension ∈ [".jpg", ".heic", ".avif"]) (hiN : i ≤ N) :
    get_output_path ipath output_dir input_root extension (some base) i N
      = output_dir ++ "/"
        ++ (base ++ "_"
            ++ String.mk (zfill (natDigits i) (max 3 (natDigits N).length))
            ++ extension) ∧
    (zfill (natDigits i) (max 3 (natDigits N).length)).length
      = max 3 (natDigits N).length ∧
    ('/' : Char) ∉ (base ++ "_"
        ++ String.mk (zfill (natDigits i) (max 3 (natDigits N).length))
        ++ extension).toList ∧
    (∀ ipath2 input_root2 : String,
      get_output_path ipath2 output_dir input_root2 extension (some base) i N
        = get_output_path ipath output_dir input_root extension (some base) i N) ∧
    ((List.range 7).map fun k =>
        String.mk (zfill (natDigits (k + 1)) (max 3 (natDigits 7).length)))
      = ["001", "002", "003", "004", "005", "006", "007"] ∧
    max 3 (natDigits 12345).length = 5 := by
  refine ⟨?_, ?_, ?_, ?_, by decide, by decide⟩
  · simp [get_output_path, hbase]
  · rw [zfill_length]
    exact max_eq_left (le_trans (natDigits_length_le hiN) (le_max_right 3 _))
  · have hnum : ('/' : Char) ∉ zfill (natDigits i) (max 3 (natDigits N).length) :=
      zfill_no_slash _ _ (natDigits_no_slash i)
    simp only [String.toList, String.data_append]
    simp only [List.mem_append]
    push_neg
    refine ⟨⟨⟨?_, ?_⟩, ?_⟩, ?_⟩
    · exact fun h => hslash h
    · decide
    · exact fun h => hnum h
    · simp only [List.mem_cons, List.not_mem_nil, or_false] at hext
      rcases hext with rfl | rfl | rfl
      · decide
      · decide
      · decide
  · intro ipath2 input_root2
    simp [get_output_path, hbase]

theorem c7_rename_padding_witness :
    ("vacation" : String) ≠ "" ∧
    ('/' : Char) ∉ ("vacation" : String).toList ∧
    (".jpg" : String) ∈ [".jpg", ".heic", ".avif"] ∧
    (4 : Nat) ≤ 7 ∧
    get_output_path "/r/sub/a.png" "/out" "/r" ".jpg" (some "vacation") 4 7
      = "/out" ++ "/" ++ ("vacation" ++ "_"
          ++ String.mk (zfill (natDigits 4) (max 3 (natDigits 7).length)) ++ ".jpg") :=
  ⟨by decide, by decide, by decide, by decide,
    (c7_rename_padding "vacation" "/out" "/r" ".jpg" "/r/sub/a.png" 4 7
      (by decide) (by decide) (by decide) (by decide)).1⟩

theorem keyCount_cons (k0 : String) (c : Nat) (rest : List (String × Nat)) (k : String) :
    keyCount ((k0, c) :: rest) k = if k = k0 then c else keyCount rest k := by
  by_cases h : k = k0
  · simp [keyCount, List.lookup, h]
  · simp [keyCount, List.lookup, beq_eq_false_iff_ne.mpr h, h]

theorem keyCount_counterAdd (acc : List (String × Nat)) (k0 k : String) :
    keyCount (counterAdd acc k0) k = keyCount acc k + (if k = k0 then 1 else 0) := by
  induction acc with
  | nil =>
    by_cases h : k = k0
    · simp [counterAdd, keyCount, List.lookup, h]
    · simp [counterAdd, keyCount, List.lookup, beq_eq_false_iff_ne.mpr h, h]
  | cons p rest ih =>
    rcases p with ⟨ka, ca⟩
    by_cases hak : ka = k0
    · subst hak
      rw [show counterAdd ((ka, ca) :: rest) ka = (ka, ca + 1) :: rest by
        simp [counterAdd]]
      rw [keyCount_cons, keyCount_cons]
      by_cases hk : k = ka <;> simp [hk]
    · rw [show counterAdd ((ka, ca) :: rest) k0 = (ka, ca) :: counterAdd rest k0 by
        simp [counterAdd, hak]]
      rw [keyCount_cons, keyCount_cons]
      by_cases hk : k = ka
      · subst hk
        simp [hak]
      · simp [hk, ih]

theorem totalCount_cons (p : String × Nat) (rest : List (String × Nat)) :
    totalCount (p :: rest) = p.2 + totalCount rest := by
  simp [totalCount]

theorem totalCount_counterAdd (acc : List (String × Nat)) (k0 : String) :
    totalCount (counterAdd acc k0) = totalCount acc + 1 := by
  induction acc with
  | nil => simp [counterAdd, totalCount]
  | cons p rest ih =>
    rcases p with ⟨ka, ca⟩
    by_cases hak : ka = k0 <;>
      simp [counterAdd, hak, totalCount_cons, ih] <;> omega

theorem keyCount_foldl (ks : List String) :
    ∀ (acc : List (String × Nat)) (k : String),
      keyCount (ks.foldl counterAdd acc) k = keyCount acc k + ks.count k := by
  induction ks with
  | nil => simp
  | cons k1 rest ih =>
    intro acc k
    simp only [List.foldl_cons]
    rw [ih, keyCount_counterAdd, List.count_cons]
    by_cases hk : k = k1
    · simp [hk]
      omega
    · simp [hk, beq_eq_false_iff_ne.mpr (Ne.symm hk)]

theorem totalCount_foldl (ks : List String) :
    ∀ acc : List (String × Nat),
      totalCount (ks.foldl counterAdd acc) = totalCount acc + ks.length := by
  induction ks with
  | nil => simp
  | cons k1 rest ih =>
    intro acc
    simp only [List.foldl_cons]
    rw [ih, totalCount_counterAdd]
    simp
    omega

theorem keyCount_buildCounts (ks : List String) (k : String) :
    keyCount (buildCounts ks) k = ks.count k := by
  have h := keyCount_foldl ks [] k
  simpa [buildCounts, keyCount] using h

theorem totalCount_buildCounts (ks : List String) :
    totalCount (buildCounts ks) = ks.length := by
  have h := totalCount_foldl ks []
  simpa [buildCounts, totalCount] using h

theorem mc1Aux_spec (l : List (String × Nat)) :
    ∀ q : String × Nat, ∃ r, mc1Aux (some q) l = some r ∧
      (r = q ∨ r ∈ l) ∧ q.2 ≤ r.2 ∧ ∀ p ∈ l, p.2 ≤ r.2 := by
  induction l with
  | nil =>
    intro q
    exact ⟨q, rfl, Or.inl rfl, le_refl _, by simp⟩
  | cons p rest ih =>
    intro q
    by_cases hlt : q.2 < p.2
    · obtain ⟨r, h1, h2, h3, h4⟩ := ih p
      refine ⟨r, ?_, ?_, ?_, ?_⟩
      · simpa [mc1Aux, hlt] using h1
      · rcases h2 with rfl | h2
        · exact Or.inr (List.mem_cons_self _ _)
        · exact Or.inr (List.mem_cons_of_mem _ h2)
      · exact le_trans (le_of_lt hlt) h3
      · intro x hx
        rcases List.mem_cons.mp hx with rfl | hx
        · exact h3
        · exact h4 x hx
    · obtain ⟨r, h1, h2, h3, h4⟩ := ih q
      refine ⟨r, ?_, ?_, ?_, ?_⟩
      · simpa [mc1Aux, hlt] using h1
      · rcases h2 with rfl | h2
        · exact Or.inl rfl
        · exact Or.inr (List.mem_cons_of_mem _ h2)
      · exact h3
      · intro x hx
        rcases List.mem_cons.mp hx with rfl | hx
        · omega
        · exact h4 x hx

theorem most_common1_spec (c : String × Nat) (rest : List (String × Nat)) :
    ∃ r, most_common1 (c :: rest) = some r ∧ r ∈ c :: rest ∧
      ∀ p ∈ c :: rest, p.2 ≤ r.2 := by
  obtain ⟨r, h1, h2, h3, h4⟩ := mc1Aux_spec rest c
  refine ⟨r, ?_, ?_, ?_⟩
  · simpa [most_common1, mc1Aux] using h1
  · rcases h2 with rfl | h2
    · exact List.mem_cons_self _ _
    · exact List.mem_cons_of_mem _ h2
  · intro p hp
    rcases List.mem_cons.mp hp with rfl | hp
    · exact h3
    · exact h4 p hp

theorem lookup_mem {β : Type} {l : List (String × β)} {k : String} {c : β}
    (h : l.lookup k = some c) : (k, c) ∈ l := by
  induction l with
  | nil => simp [List.lookup] at h
  | cons p rest ih =>
    rcases p with ⟨ka, ca⟩
    cases hbeq : k == ka with
    | true =>
      have hk : k = ka := eq_of_beq hbeq
      simp [List.lookup, hbeq] at h
      subst hk
      subst h
      exact List.mem_cons_self _ _
    | false =>
      simp [List.lookup, hbeq] at h
      exact List.mem_cons_of_mem _ (ih h)

theorem snd_le_totalCount {l : List (String × Nat)} {p : String × Nat} (hp : p ∈ l) :
    p.2 ≤ totalCount l := by
  induction l with
  | nil => simp at hp
  | cons a rest ih =>
    rw [totalCount_cons]
    rcases List.mem_cons.mp hp with rfl | hp
    · omega
    · have := ih hp
      omega

theorem two_mem_le_totalCount {l : List (String × Nat)} {p q : String × Nat}
    (hp : p ∈ l) (hq : q ∈ l) (hne : p.1 ≠ q.1) :
    p.2 + q.2 ≤ totalCount l := by
  induction l with
  | nil => simp at hp
  | cons a rest ih =>
    rw [totalCount_cons]
    rcases List.mem_cons.mp hp with hpa | hpr
    · rcases List.mem_cons.mp hq with hqa | hqr
      · exact absurd (by rw [hpa, hqa]) hne
      · have h1 := snd_le_totalCount hqr
        have h2 : p.2 = a.2 := by rw [hpa]
        omega
    · rcases List.mem_cons.mp hq with hqa | hqr
      · have h1 := snd_le_totalCount hpr
        have h2 : q.2 = a.2 := by rw [hqa]
        omega
      · have := ih hpr hqr
        omega

theorem fmtOf_bucket (img : String) :
    fmtOf img = "jpeg" ∨ fmtOf img = "heic" ∨ fmtOf img = "avif" := by
  unfold fmtOf extToFormatGet
  rcases h : EXT_TO_FORMAT.lookup (pyLower (pySuffix img)) with - | v
  · simp
  · have hall : ∀ q ∈ EXT_TO_FORMAT, q.2 = "jpeg" ∨ q.2 = "heic" ∨ q.2 = "avif" := by
      decide
    simpa using hall _ (lookup_mem h)

/-- C6: dominant-format detection buckets every file into
jpeg-like/heic-like/avif-like, returns the most common bucket exactly when
it holds a strict majority of all images, and returns the jpeg bucket
otherwise; concretely 6 jpeg-like + 4 heic-like gives jpeg and
7 heic-like + 3 jpeg-like gives heic. -/
theorem c6_dominant_format (images : List String) :
    (∀ fmt, images.length < 2 * ((images.map fmtOf).count fmt) →
        detect_dominant_format images = fmt) ∧
    ((∀ fmt, 2 * ((images.map fmtOf).count fmt) ≤ images.length) →
        detect_dominant_format images = "jpeg") ∧
    (∀ img, fmtOf img = "jpeg" ∨ fmtOf img = "heic" ∨ fmtOf img = "avif") ∧
    detect_dominant_format ["a1.jpg", "a2.jpg", "a3.png", "a4.bmp", "a5.gif", "a6.webp",
      "b1.heic", "b2.heic", "b3.heic", "b4.heif"] = "jpeg" ∧
    detect_dominant_format ["b1.heic", "b2.heic", "b3.heic", "b4.heif", "b5.heic",
      "b6.heic", "b7.heic", "a1.jpg", "a2.jpg", "a3.png"] = "heic" := by
  have hmaplen : (images.map fmtOf).length = images.length := List.length_map _ _
  refine ⟨?_, ?_, fmtOf_bucket, by decide, by decide⟩
  · intro fmt hmaj
    rcases hc : buildCounts (images.map fmtOf) with - | ⟨c, rest⟩
    · exfalso
      have h0 := keyCount_buildCounts (images.map fmtOf) fmt
      rw [hc] at h0
      have : (images.map fmtOf).count fmt = 0 := by
        simpa [keyCount] using h0.symm
      have hcle := List.count_le_length fmt (images.map fmtOf)
      omega
    · obtain ⟨⟨d, cv⟩, hr1, hr2, hr3⟩ := most_common1_spec c rest
      have hkc : ∀ k, keyCount (c :: rest) k = (images.map fmtOf).count k := by
        intro k
        have h := keyCount_buildCounts (images.map fmtOf) k
        rwa [hc] at h
      have htc : totalCount (c :: rest) = images.length := by
        have h := totalCount_buildCounts (images.map fmtOf)
        rw [hc] at h
        rw [h, hmaplen]
      have hcfpos : 0 < (images.map fmtOf).count fmt := by
        have hcle := List.count_le_length fmt (images.map fmtOf)
        omega
      have hlf : (c :: rest).lookup fmt = some ((images.map fmtOf).count fmt) := by
        have h := hkc fmt
        rcases hl : (c :: rest).lookup fmt with - | v
        · rw [keyCount, hl] at h
          simp at h
          omega
        · rw [keyCount, hl] at h
          simpa using congrArg some h
      have hmem : (fmt, (images.map fmtOf).count fmt) ∈ c :: rest := lookup_mem hlf
      have hdeq : d = fmt := by
        by_contra hne
        have hle1 : (images.map fmtOf).count fmt ≤ cv :=
          hr3 (fmt, (images.map fmtOf).count fmt) hmem
        have hle2 : cv + (images.map fmtOf).count fmt ≤ totalCount (c :: rest) :=
          two_mem_le_totalCount hr2 hmem hne
        omega
      have hcond : totalCount (c :: rest) < 2 * keyCount (c :: rest) d := by
        rw [hdeq, htc, hkc]
        exact hmaj
      have hdet : detect_dominant_format images
          = (if totalCount (c :: rest) < 2 * keyCount (c :: rest) d
             then d else "jpeg") := by
        simp only [detect_dominant_format, hc, hr1]
      rw [hdet, if_pos hcond]
      exact hdeq
  · intro hno
    rcases hc : buildCounts (images.map fmtOf) with - | ⟨c, rest⟩
    · simp [detect_dominant_format, hc, most_common1, mc1Aux]
    · obtain ⟨⟨d, cv⟩, hr1, hr2, hr3⟩ := most_common1_spec c rest
      have hkc : keyCount (c :: rest) d = (images.map fmtOf).count d := by
        have h := keyCount_buildCounts (images.map fmtOf) d
        rwa [hc] at h
      have htc : totalCount (c :: rest) = images.length := by
        have h := totalCount_buildCounts (images.map fmtOf)
        rw [hc] at h
        rw [h, hmaplen]
      have hcond : ¬ totalCount (c :: rest) < 2 * keyCount (c :: rest) d := by
        rw [htc, hkc]
        have := hno d
        omega
      have hdet : detect_dominant_format images
          = (if totalCount (c :: rest) < 2 * keyCount (c :: rest) d
             then d else "jpeg") := by
        simp only [detect_dominant_format, hc, hr1]
      rw [hdet, if_neg hcond]

theorem c6_dominant_format_witness :
    (["x1.heic", "x2.heic", "x3.heic", "y1.jpg"] : List String).length
      < 2 * ((["x1.heic", "x2.heic", "x3.heic", "y1.jpg"].map fmtOf).count "heic") ∧
    detect_dominant_format ["x1.heic", "x2.heic", "x3.heic", "y1.jpg"] = "heic" :=
  ⟨by decide,
    (c6_dominant_format ["x1.heic", "x2.heic", "x3.heic", "y1.jpg"]).1 "heic" (by decide)⟩

/-- C5 counterexample: the claim says the extension comparison is
case-insensitive and that only files under the output/originals
directories are excluded; in the code `/r/a.Jpg` — whose suffix `.Jpg`
lowercases to the supported `.jpg` — is matched by neither the lowercase
nor the uppercase glob pattern and is not discovered, and
`/r/converted_v2/b.jpg`, which is not under the output directory
`/r/converted`, is nevertheless excluded by the plain string-prefix test. -/
theorem c5_discovery_counterexample :
    pyLower (pySuffix "/r/a.Jpg") ∈ SUPPORTED_EXTENSIONS ∧
    find_images ["/r/a.Jpg"] = [] ∧
    filter_excluded ["/r/converted_v2/b.jpg"] ["/r/converted"] = [] ∧
    pyStartsWith "/r/converted_v2/b.jpg" ("/r/converted" ++ "/") = false := by
  refine ⟨by decide, ?_, by decide, by decide⟩
  have h : ((["/r/a.Jpg"] : List String).filter matchesSupported).dedup = [] := by decide
  have h2 := List.mergeSort_perm ((["/r/a.Jpg"] : List String).filter matchesSupported).dedup
    (fun a b => decide (a ≤ b))
  rw [h] at h2
  exact List.Perm.eq_nil h2

/-- C5 (amended): image discovery returns, deduplicated and
lexicographically sorted, exactly the files whose name ends with a
supported extension written in all-lowercase or in all-uppercase form
(mixed-case extensions are not matched), and the schedule filter of
`main` then removes exactly the files whose path string starts with the
output- or originals-directory path string (a plain string-prefix test,
which can also drop files of a sibling directory whose name shares that
string prefix). -/
theorem c5_discovery (files images exclude_dirs : List String) (p : String) :
    (p ∈ find_images files ↔ p ∈ files ∧ matchesSupported p = true) ∧
    (matchesSupported p = true ↔ ∃ e ∈ SUPPORTED_EXTENSIONS,
        pyEndsWith p e = true ∨ pyEndsWith p (pyUpper e) = true) ∧
    (find_images files).Sorted (· ≤ ·) ∧
    (find_images files).Nodup ∧
    (p ∈ filter_excluded images exclude_dirs ↔
      p ∈ images ∧ ∀ d ∈ exclude_dirs, ¬ pyStartsWith p d = true) := by
  refine ⟨?_, ?_, ?_, ?_, ?_⟩
  · simp [find_images, List.mem_mergeSort, List.mem_dedup, List.mem_filter]
  · simp [matchesSupported, List.any_eq_true]
  · have hs := @List.sorted_mergeSort String (fun a b : String => decide (a ≤ b))
      (fun a b c h1 h2 => by
        simp only [decide_eq_true_eq] at h1 h2 ⊢
        exact le_trans h1 h2)
      (fun a b => by
        simp only [Bool.or_eq_true, decide_eq_true_eq]
        exact le_total a b)
      ((files.filter matchesSupported).dedup)
    unfold find_images
    refine List.Pairwise.imp ?_ hs
    intro a b h
    simpa using h
  · unfold find_images
    exact (List.mergeSort_perm _ _).nodup_iff.mpr (List.nodup_dedup _)
  · simp [filter_excluded, List.mem_filter]

end ImgCrunch
